import Mathlib

/-!
Verification development for the OpenVault credential-resolution engine
(`src/index.ts` resolver, `src/registry/index.ts` accessors, registry types).

Modelling conventions:
* JS strings are Lean `String`s; per-character work uses `List Char`.
* A JS `Map<string,string>` is an association list with JS `Map.set`
  semantics (replace the first binding in place, else append).
* `process.env` is a function `String → Option String`.
* JS truthiness of `string | undefined` (`!value`) is `truthy` below:
  `undefined` and the empty string are falsy.
* `new RegExp(p)` is modelled by a compiled regex AST (`Regex`) carried next
  to its source string in `RegexPattern`; `RegExp.prototype.test` searches
  for a match starting at any position (`Regex.test`), while matching the
  whole subject is `Regex.fullMatch`.
* Thrown `Error`s become `Except VaultError`; the two throw sites of the
  resolver are tagged `credentialNotFound` and `unknownCredential`.
* `console.warn` output is collected in the `warnings` field of `GetOutcome`.
* Filesystem paths are component lists, innermost component first; `[]` is
  the root, whose parent is itself (`path.dirname` fixpoint).
-/

namespace OpenVault

/-! ## Regular expressions (model of the JS `RegExp` fragment used) -/

/-- Compiled regular expression AST (anchor-free fragment). -/
inductive Regex where
  | fail
  | eps
  | char (c : Char)
  | cat (r s : Regex)
  | alt (r s : Regex)
  | star (r : Regex)
deriving DecidableEq, Repr

/-- Does the regex accept the empty string? -/
def Regex.nullable : Regex → Bool
  | .fail => false
  | .eps => true
  | .char _ => false
  | .cat r s => r.nullable && s.nullable
  | .alt r s => r.nullable || s.nullable
  | .star _ => true

/-- Brzozowski derivative with respect to one character. -/
def Regex.deriv : Regex → Char → Regex
  | .fail, _ => .fail
  | .eps, _ => .fail
  | .char c, d => if c == d then .eps else .fail
  | .cat r s, c =>
    if r.nullable then .alt (.cat (r.deriv c) s) (s.deriv c)
    else .cat (r.deriv c) s
  | .alt r s, c => .alt (r.deriv c) (s.deriv c)
  | .star r, c => .cat (r.deriv c) (.star r)

/-- Whole-list matching via derivatives. -/
def Regex.matchChars : Regex → List Char → Bool
  | r, [] => r.nullable
  | r, c :: cs => (r.deriv c).matchChars cs

/-- Does some prefix of the list match the regex? -/
def Regex.prefixMatch : Regex → List Char → Bool
  | r, [] => r.nullable
  | r, c :: cs => r.nullable || (r.deriv c).prefixMatch cs

/-- JS `RegExp.prototype.test` on a character list: a match may start at any
position of the subject. -/
def Regex.testChars (r : Regex) : List Char → Bool
  | [] => r.nullable
  | c :: cs => r.prefixMatch (c :: cs) || r.testChars cs

/-- JS `regex.test(value)`: search semantics. -/
def Regex.test (r : Regex) (s : String) : Bool :=
  r.testChars s.data

/-- Matching of the whole subject string (what an anchored pattern tests). -/
def Regex.fullMatch (r : Regex) (s : String) : Bool :=
  r.matchChars s.data

/-- A registry `pattern` field: the regex source string stored in the
registry together with its compilation `new RegExp(source)`. -/
structure RegexPattern where
  source : String
  regex : Regex
deriving DecidableEq, Repr

/-! ## Registry data model (`src/registry/types.ts`) -/

/-- A credential definition. `type` holds the `CredentialType` tag as a
plain string. Optional descriptive fields never read by the resolver
(`website`, `docs`, `authMethods`, `scopes`) are omitted. -/
structure Credential where
  description : String
  required : Bool
  type : String
  pattern : Option RegexPattern
  setupUrl : Option String
  setupSteps : Option (List String)
  default : Option String
deriving DecidableEq, Repr

/-- A service definition: display data plus its credential map
(association list, iteration order = JSON object order). -/
structure Service where
  name : String
  description : String
  credentials : List (String × Credential)
deriving DecidableEq, Repr

/-- The service registry (`registry/services.json`, whose content is data,
not code; all registry-reading functions take it as a parameter). -/
structure ServiceRegistry where
  version : String
  services : List (String × Service)
deriving DecidableEq, Repr

/-- Lookup in an association list, first binding wins (JS object access). -/
def assocGet {α : Type} (m : List (String × α)) (k : String) : Option α :=
  match m with
  | [] => none
  | p :: rest => if p.1 == k then some p.2 else assocGet rest k

/-! ## Registry accessors (`src/registry/index.ts`) -/

/-- `getService`: a service definition by id. -/
def getService (reg : ServiceRegistry) (serviceId : String) : Option Service :=
  assocGet reg.services serviceId

/-- `getCredentials`: all credential definitions of a service. -/
def getCredentials (reg : ServiceRegistry) (serviceId : String) :
    Option (List (String × Credential)) :=
  (getService reg serviceId).map Service.credentials

/-- `getCredential`: one credential definition by (service, key). -/
def getCredential (reg : ServiceRegistry) (serviceId key : String) :
    Option Credential :=
  (getService reg serviceId).bind (fun s => assocGet s.credentials key)

/-- `getRequiredCredentials`: keys of a service whose `required` flag is set
(empty when the service is unknown). -/
def getRequiredCredentials (reg : ServiceRegistry) (serviceId : String) :
    List String :=
  match getService reg serviceId with
  | none => []
  | some s => (s.credentials.filter (fun p => p.2.required)).map (fun p => p.1)

/-- Result record of `validateCredential`. -/
structure ValidationResult where
  valid : Bool
  error : Option String
deriving DecidableEq, Repr

/-- `validateCredential`: unknown key fails with a diagnostic; no pattern
succeeds; otherwise the compiled pattern is run with `RegExp.test`. -/
def validateCredential (reg : ServiceRegistry) (serviceId key value : String) :
    ValidationResult :=
  match getCredential reg serviceId key with
  | none =>
    ⟨false, some ("Unknown credential: " ++ key ++ " for service: " ++ serviceId)⟩
  | some credential =>
    match credential.pattern with
    | none => ⟨true, none⟩
    | some p =>
      if p.regex.test value then ⟨true, none⟩
      else
        ⟨false, some ("Invalid format for " ++ key ++ ". Expected pattern: " ++ p.source)⟩

/-- Result record of `getSetupInstructions`. -/
structure SetupInstructions where
  url : Option String
  steps : Option (List String)
deriving DecidableEq, Repr

/-- `getSetupInstructions`: setup url and steps of a credential (both absent
when the credential is unknown). -/
def getSetupInstructions (reg : ServiceRegistry) (serviceId key : String) :
    SetupInstructions :=
  let credential := getCredential reg serviceId key
  ⟨credential.bind Credential.setupUrl, credential.bind Credential.setupSteps⟩

/-- `findServiceByCredential`: the first service whose credential map
contains the key. -/
def findServiceByCredential (reg : ServiceRegistry) (key : String) :
    Option String :=
  (reg.services.find? (fun p => p.2.credentials.any (fun q => q.1 == key))).map (fun p => p.1)

/-- `listServices`: (id, name, description) of every registered service. -/
def listServices (reg : ServiceRegistry) : List (String × String × String) :=
  reg.services.map (fun p => (p.1, p.2.name, p.2.description))

/-- `listAllCredentialKeys`: every credential key of every service. -/
def listAllCredentialKeys (reg : ServiceRegistry) : List String :=
  reg.services.foldl (fun acc p => acc ++ p.2.credentials.map (fun q => q.1)) []

/-! ## The in-memory credential map (JS `Map<string,string>`) -/

/-- `Map.get`: value of the first (unique) binding of the key. -/
def credGet (m : List (String × String)) (k : String) : Option String :=
  match m with
  | [] => none
  | p :: rest => if p.1 == k then some p.2 else credGet rest k

/-- `Map.set`: replace the binding in place, else append. -/
def credSet (m : List (String × String)) (k v : String) :
    List (String × String) :=
  match m with
  | [] => [(k, v)]
  | p :: rest => if p.1 == k then (k, v) :: rest else p :: credSet rest k v

/-- `Map.has`: is the key bound (even to the empty string)? -/
def credHas (m : List (String × String)) (k : String) : Bool :=
  match m with
  | [] => false
  | p :: rest => p.1 == k || credHas rest k

/-! ## Env file parser (`Vault.loadEnv`) -/

/-- The double-quote character. -/
def dqChar : Char := Char.ofNat 34

/-- The single-quote character. -/
def sqChar : Char := Char.ofNat 39

/-- JS `String.prototype.trim` on a character list. -/
def trimChars (cs : List Char) : List Char :=
  ((cs.dropWhile Char.isWhitespace).reverse.dropWhile Char.isWhitespace).reverse

/-- `content.split('\n')` on a character list. -/
def splitOnNl : List Char → List (List Char)
  | [] => [[]]
  | c :: rest =>
    match splitOnNl rest, c == '\n' with
    | r, true => [] :: r
    | [], false => [[c]]
    | l :: ls, false => (c :: l) :: ls

/-- Split at the first `=` (JS `indexOf('=')`); `none` when there is none. -/
def splitFirstEq : List Char → Option (List Char × List Char)
  | [] => none
  | c :: rest =>
    if c == '=' then some ([], rest)
    else (splitFirstEq rest).map (fun p => (c :: p.1, p.2))

/-- The quote-stripping step of `loadEnv`: when the value starts and ends
with a double quote, or starts and ends with a single quote, take
`value.slice(1, -1)`. -/
def stripQuotes (cs : List Char) : List Char :=
  if (cs.head? == some dqChar && cs.getLast? == some dqChar) ||
      (cs.head? == some sqChar && cs.getLast? == some sqChar) then
    (cs.drop 1).dropLast
  else cs

/-- One iteration of the `loadEnv` line loop over the credential map:
skip blank and `#` lines, skip lines without `=`, otherwise bind the
trimmed key to the trimmed, quote-stripped value. -/
def parseEnvLine (m : List (String × String)) (line : List Char) :
    List (String × String) :=
  let trimmed := trimChars line
  if trimmed.isEmpty || trimmed.head? == some '#' then m
  else
    match splitFirstEq trimmed with
    | none => m
    | some p =>
      credSet m (String.mk (trimChars p.1)) (String.mk (stripQuotes (trimChars p.2)))

/-- `Vault.loadEnv` on file text: fold the line parser over the lines. -/
def loadEnvText (content : String) : List (String × String) :=
  (splitOnNl content.data).foldl parseEnvLine []

/-! ## Env file locator (`Vault.findEnvFile`) -/

/-- A filesystem path as its components, innermost first; `[]` is the root. -/
abbrev FsPath := List String

/-- `path.join(dir, '.env')`. -/
def envPathOf (dir : FsPath) : FsPath :=
  ".env" :: dir

/-- The loop of `findEnvFile`: return `dir/.env` if it exists, else move to
the parent; at the root (its own parent) return `cwd/.env`. -/
def findEnvFrom (fsHas : FsPath → Bool) (cwd : FsPath) : FsPath → FsPath
  | [] => if fsHas (envPathOf []) then envPathOf [] else envPathOf cwd
  | d :: parent =>
    if fsHas (envPathOf (d :: parent)) then envPathOf (d :: parent)
    else findEnvFrom fsHas cwd parent

/-- `Vault.findEnvFile`: start the walk at the working directory.
`fsHas` is `fs.existsSync` on the filesystem state at call time. -/
def findEnvFile (fsHas : FsPath → Bool) (cwd : FsPath) : FsPath :=
  findEnvFrom fsHas cwd cwd

/-- The starting directory and its successive parents, ending at the root. -/
def ancestors : FsPath → List FsPath
  | [] => [[]]
  | d :: parent => (d :: parent) :: ancestors parent

/-! ## The Vault resolver (`src/index.ts`) -/

/-- `Required<VaultOptions>` after the constructor fills the defaults. -/
structure VaultOptions where
  envPath : String
  throwOnMissing : Bool
  validate : Bool
deriving DecidableEq, Repr

/-- Resolver state: the in-memory credential map plus the options. -/
structure Vault where
  credentials : List (String × String)
  options : VaultOptions
deriving DecidableEq, Repr

/-- The process environment. -/
abbrev EnvMap := String → Option String

/-- JS truthiness of a `string | undefined` value: `undefined` and the
empty string are falsy. -/
def truthy : Option String → Bool
  | none => false
  | some s => !s.isEmpty

/-- The two throw sites of the resolver. -/
inductive VaultError where
  | credentialNotFound (message : String)
  | unknownCredential (message : String)
deriving DecidableEq, Repr

/-- A successful `get`: the returned value plus the `console.warn` lines
emitted on the way. -/
structure GetOutcome where
  value : String
  warnings : List String
deriving DecidableEq, Repr

/-- The `Credential not found` message, enriched with the registry's setup
url and numbered setup steps when the owning service is known. An empty
`setupUrl` string is falsy in JS and is skipped; a present `setupSteps`
array is always appended (arrays are truthy even when empty). -/
def notFoundMessage (reg : ServiceRegistry) (key : String) : String :=
  match findServiceByCredential reg key with
  | none => "Credential not found: " ++ key
  | some serviceId =>
    let instructions := getSetupInstructions reg serviceId key
    let m1 := "Credential not found: " ++ key
    let m2 :=
      match instructions.url with
      | some u => if u.isEmpty then m1 else m1 ++ "\n\nGet it here: " ++ u
      | none => m1
    match instructions.steps with
    | some steps =>
      m2 ++ "\n\nSetup steps:\n" ++
        String.intercalate "\n"
          (steps.enum.map (fun p => "  " ++ toString (p.1 + 1) ++ ". " ++ p.2))
    | none => m2

/-- `Vault.get`: try the in-memory map, fall back to the environment when
the map value is falsy, throw `CredentialNotFound` when the result is falsy
and `throwOnMissing` is set, warn (never throw) on a failed format
validation, and return the value (empty string when absent). -/
def Vault.get (v : Vault) (reg : ServiceRegistry) (env : EnvMap)
    (key : String) : Except VaultError GetOutcome :=
  let value0 := credGet v.credentials key
  let value := if truthy value0 then value0 else env key
  if !truthy value && v.options.throwOnMissing then
    Except.error (VaultError.credentialNotFound (notFoundMessage reg key))
  else
    let warnings :=
      if truthy value && v.options.validate then
        match findServiceByCredential reg key with
        | some serviceId =>
          let r := validateCredential reg serviceId key (value.getD "")
          if r.valid then [] else ["Warning: " ++ r.error.getD "undefined"]
        | none => []
      else []
    Except.ok ⟨value.getD "", warnings⟩

/-- `Vault.getFor`: reject (service, key) pairs absent from the registry
with `UnknownCredential`, else behave exactly like `get`. -/
def Vault.getFor (v : Vault) (reg : ServiceRegistry) (env : EnvMap)
    (serviceId key : String) : Except VaultError GetOutcome :=
  match getCredential reg serviceId key with
  | none =>
    Except.error (VaultError.unknownCredential
      ("Unknown credential " ++ key ++ " for service " ++ serviceId))
  | some _ => v.get reg env key

/-- `Vault.has`: key bound in the map, or present in the environment. -/
def Vault.has (v : Vault) (env : EnvMap) (key : String) : Bool :=
  credHas v.credentials key || (env key).isSome

/-- `Vault.set`: overwrite the in-memory map entry (no persistence). -/
def Vault.set (v : Vault) (key value : String) : Vault :=
  ⟨credSet v.credentials key value, v.options⟩

/-- `Vault.validateService`: `(valid, missing)` over the required keys,
using `has` only. -/
def Vault.validateService (v : Vault) (reg : ServiceRegistry) (env : EnvMap)
    (serviceId : String) : Bool × List String :=
  let missing := (getRequiredCredentials reg serviceId).filter
    (fun key => !(v.has env key))
  (missing.isEmpty, missing)

/-- The Vault constructor with an explicit file content (`none` models a
missing or unreadable file, which contributes an empty map). -/
def mkVault (fileContent : Option String) (envPath : String)
    (throwOnMissing validate : Bool) : Vault :=
  ⟨match fileContent with
    | none => []
    | some t => loadEnvText t,
   ⟨envPath, throwOnMissing, validate⟩⟩

/-- The value of a successful `get`, `none` when it threw. -/
def okValue : Except VaultError GetOutcome → Option String
  | Except.ok o => some o.value
  | Except.error _ => none

/-! ## Spec-side definitions (for refinement comparison in C5) -/

/-- Is the character one of the two quote characters? -/
def isQuoteChar (c : Char) : Bool :=
  c == dqChar || c == sqChar

/-- Spec's wording: the value is wrapped in a single matching pair of
double or single quotes (so it has at least two characters, and its first
and last character are the same quote character). -/
def wrappedInMatchingPair (cs : List Char) : Bool :=
  decide (2 ≤ cs.length) && (cs.head? == cs.getLast?) &&
    (match cs.head? with
     | some c => isQuoteChar c
     | none => false)

/-- Quote stripping as the spec describes it: strip exactly the outer pair,
and only when the value is wrapped in a single matching pair. -/
def specStripQuotes (cs : List Char) : List Char :=
  if wrappedInMatchingPair cs then (cs.drop 1).dropLast else cs

/-! ## Concrete fixtures used by the claim theorems -/

/-- A registry with no services. -/
def regEmpty : ServiceRegistry := ⟨"1.0.0", []⟩

/-- An empty process environment. -/
def envNone : EnvMap := fun _ => none

/-- A vault whose map binds `K` to the empty string (defaults on). -/
def vaultEmptyK : Vault := ⟨[("K", "")], ⟨"", true, true⟩⟩

/-- An environment where `K` is set to `x`. -/
def envKx : EnvMap := fun k => if k == "K" then some "x" else none

/-- A vault whose map binds `K` to `mapv`. -/
def vaultMapK : Vault := ⟨[("K", "mapv")], ⟨"", true, true⟩⟩

/-- A vault with an empty map and defaults on. -/
def vaultDefault : Vault := ⟨[], ⟨"", true, true⟩⟩

/-- The registry pattern `b` of the fixture service: compiled form of the
unanchored regex source string `b`. -/
def patB : RegexPattern := ⟨"b", Regex.char 'b'⟩

/-- A credential definition carrying the pattern `b`. -/
def credB : Credential := ⟨"demo credential", true, "api_key", some patB, none, none, none⟩

/-- A service owning the single credential `K`. -/
def svcB : Service := ⟨"Svc", "demo service", [("K", credB)]⟩

/-- A one-service registry: service `svc` with credential `K` (pattern `b`). -/
def regB : ServiceRegistry := ⟨"1.0.0", [("svc", svcB)]⟩

/-- A vault binding `NOT_A_REAL_KEY`, with `throwOnMissing` off. -/
def vaultNrk : Vault := ⟨[("NOT_A_REAL_KEY", "v")], ⟨"", false, true⟩⟩

/-- An environment where `NOT_A_REAL_KEY` is set. -/
def envNrk : EnvMap := fun k => if k == "NOT_A_REAL_KEY" then some "v" else none

/-- The round-trip file of the parser claim:
a double-quoted value, a single-quoted value, a comment line, a blank line,
and an unquoted value. -/
def fileRoundTrip : String :=
  String.mk
    (['K', '='] ++ [dqChar, 'v', dqChar] ++ ['\n'] ++
     ['K', '2', '='] ++ [sqChar, 'v', '2', sqChar] ++ ['\n'] ++
     ['#', ' ', 'c', 'o', 'm', 'm', 'e', 'n', 't'] ++ ['\n'] ++ ['\n'] ++
     ['K', '3', '=', 'v', '3'])

/-- A file whose single line binds `K` to a raw value that is exactly one
double-quote character. -/
def fileLoneQuote : String :=
  String.mk ['K', '=', dqChar]

/-- An environment where `K` is set to the empty string. -/
def envKEmpty : EnvMap := fun k => if k == "K" then some "" else none

/-- An environment where `K` is set to `zz` (which does not contain `b`). -/
def envKzz : EnvMap := fun k => if k == "K" then some "zz" else none

/-- A vault whose map binds `X` to `filev` (a file-loaded value). -/
def vaultFileX : Vault := ⟨[("X", "filev")], ⟨"", true, true⟩⟩

/-- An environment where `X` is set to `envv`. -/
def envXenvv : EnvMap := fun k => if k == "X" then some "envv" else none

/-! ## Helper lemmas -/

/-- Truthiness of an absent value. -/
theorem truthy_none : truthy none = false := rfl

/-- Truthiness of the empty string. -/
theorem truthy_some_empty : truthy (some "") = false := rfl

/-- Truthiness of a nonempty string. -/
theorem truthy_some (s : String) (h : s.isEmpty = false) :
    truthy (some s) = true := by
  simp [truthy, h]

/-- After `Map.set`, `Map.get` of the same key sees the new value. -/
theorem credGet_credSet_self (m : List (String × String)) (k val : String) :
    credGet (credSet m k val) k = some val := by
  induction m with
  | nil => simp [credSet, credGet]
  | cons p rest ih =>
    by_cases h : p.1 = k
    · simp [credSet, credGet, h]
    · simp [credSet, credGet, h, ih]

/-- The locator loop returns the `.env` of the nearest ancestor that has
one, and `cwd/.env` when no ancestor of the starting directory does. -/
theorem findEnvFrom_eq (fsHas : FsPath → Bool) (cwd : FsPath) (dir : FsPath) :
    findEnvFrom fsHas cwd dir =
      match (ancestors dir).find? (fun d => fsHas (envPathOf d)) with
      | some d => envPathOf d
      | none => envPathOf cwd := by
  induction dir with
  | nil =>
    cases h : fsHas (envPathOf []) <;> simp [findEnvFrom, ancestors, h]
  | cons d parent ih =>
    cases h : fsHas (envPathOf (d :: parent)) <;>
      simp [findEnvFrom, ancestors, h, ih]

/-- The code's quote stripping agrees with the spec's matching-pair rule on
every value except a lone quote character, which the code also strips. -/
theorem stripQuotes_eq (cs : List Char) :
    stripQuotes cs =
      if wrappedInMatchingPair cs = true ∨ cs = [dqChar] ∨ cs = [sqChar] then
        (cs.drop 1).dropLast
      else cs := by
  have hne : dqChar ≠ sqChar := by decide
  match cs with
  | [] => rfl
  | [c] =>
    by_cases h1 : c = dqChar
    · subst h1; decide
    · by_cases h2 : c = sqChar
      · subst h2; decide
      · simp [stripQuotes, wrappedInMatchingPair, isQuoteChar, h1, h2]
  | a :: b :: rest =>
    cases hgl : (b :: rest).getLast? with
    | none => simp [List.getLast?_eq_none_iff] at hgl
    | some z =>
      by_cases ha1 : a = dqChar <;> by_cases ha2 : a = sqChar <;>
        by_cases hz1 : z = dqChar <;> by_cases hz2 : z = sqChar <;>
        simp_all [stripQuotes, wrappedInMatchingPair, isQuoteChar,
          List.getLast?_cons_cons, @eq_comm Char]

/-! ## Claim theorems -/

/-- C1, counterexample: the map binds `K` to the empty string, the
environment binds `K` to `x`, and `get` returns `x` — not the map's value,
and not independently of the environment. -/
theorem get_empty_map_value_not_returned :
    credGet vaultEmptyK.credentials "K" = some "" ∧
    vaultEmptyK.get regEmpty envKx "K" = Except.ok ⟨"x", []⟩ :=
  ⟨rfl, rfl⟩

/-- C1, amended: for every key whose in-memory map value is a nonempty
string, `get` returns the map's value, regardless of the process
environment. -/
theorem get_returns_nonempty_map_value (v : Vault) (reg : ServiceRegistry)
    (env : EnvMap) (key s : String)
    (hm : credGet v.credentials key = some s) (hs : s.isEmpty = false) :
    okValue (v.get reg env key) = some s := by
  simp [Vault.get, okValue, hm, truthy_some s hs]

/-- C1, witness: the map binds `K` to `mapv`, the environment binds `K` to
`x`, and `get` returns `mapv`. -/
theorem get_returns_nonempty_map_value_witness :
    okValue (vaultMapK.get regEmpty envKx "K") = some "mapv" :=
  get_returns_nonempty_map_value vaultMapK regEmpty envKx "K" "mapv" rfl rfl

/-- C2: for a key absent from both the map and the environment, `get`
throws `CredentialNotFound` when `throwOnMissing` is true, and returns the
empty string (with no warnings) when it is false. -/
theorem get_missing_key (v : Vault) (reg : ServiceRegistry) (env : EnvMap)
    (key : String)
    (hm : credGet v.credentials key = none) (he : env key = none) :
    (v.options.throwOnMissing = true →
      v.get reg env key =
        Except.error (VaultError.credentialNotFound (notFoundMessage reg key))) ∧
    (v.options.throwOnMissing = false →
      v.get reg env key = Except.ok ⟨"", []⟩) := by
  constructor <;> intro h <;> simp [Vault.get, hm, he, truthy_none, h]

/-- C2, witness: a vault with an empty map, an empty environment and
`throwOnMissing` on throws `CredentialNotFound` for `NOKEY`. -/
theorem get_missing_key_witness :
    vaultDefault.get regEmpty envNone "NOKEY" =
      Except.error (VaultError.credentialNotFound (notFoundMessage regEmpty "NOKEY")) :=
  (get_missing_key vaultDefault regEmpty envNone "NOKEY" rfl rfl).1 rfl

/-- C3, counterexample: the fixture registry defines credential `K` of
service `svc` with the unanchored pattern `b`; the value `ab` does not
match the pattern as a whole, yet validation succeeds, because
`RegExp.test` searches for a match at any position. -/
theorem validateCredential_not_whole_match :
    getCredential regB "svc" "K" = some credB ∧
    credB.pattern = some patB ∧
    Regex.fullMatch patB.regex "ab" = false ∧
    (validateCredential regB "svc" "K" "ab").valid = true :=
  ⟨rfl, rfl, rfl, rfl⟩

/-- C3, amended: an unknown key fails with a diagnostic naming the key and
the service; a definition without a pattern succeeds unconditionally;
otherwise validation succeeds iff the pattern matches at some position of
the candidate value (`RegExp.test` search semantics, whole-value matching
only for anchored patterns), and on failure the diagnostic names the key
and echoes the expected pattern. -/
theorem validateCredential_spec (reg : ServiceRegistry)
    (serviceId key value : String) :
    (getCredential reg serviceId key = none →
      validateCredential reg serviceId key value =
        ⟨false, some ("Unknown credential: " ++ key ++ " for service: " ++ serviceId)⟩) ∧
    (∀ c, getCredential reg serviceId key = some c → c.pattern = none →
      validateCredential reg serviceId key value = ⟨true, none⟩) ∧
    (∀ c p, getCredential reg serviceId key = some c → c.pattern = some p →
      (validateCredential reg serviceId key value).valid = Regex.test p.regex value ∧
      (Regex.test p.regex value = false →
        (validateCredential reg serviceId key value).error =
          some ("Invalid format for " ++ key ++ ". Expected pattern: " ++ p.source))) := by
  refine ⟨fun h => ?_, fun c hc hp => ?_, fun c p hc hp => ⟨?_, fun ht => ?_⟩⟩
  · simp [validateCredential, h]
  · simp [validateCredential, hc, hp]
  · cases ht : Regex.test p.regex value <;>
      simp [validateCredential, hc, hp, ht]
  · simp [validateCredential, hc, hp, ht]

/-- C3, witness: on the fixture registry the validity of `ab` for `K`
equals the result of `RegExp.test` of the pattern `b`. -/
theorem validateCredential_spec_witness :
    (validateCredential regB "svc" "K" "ab").valid = Regex.test patB.regex "ab" :=
  ((validateCredential_spec regB "svc" "K" "ab").2.2 credB patB rfl rfl).1

/-- C4: `getFor` throws `UnknownCredential` whenever the (service, key)
pair has no registry definition — for every vault state, option setting and
environment — and otherwise returns exactly what `get` returns. -/
theorem getFor_spec (v : Vault) (reg : ServiceRegistry) (env : EnvMap)
    (serviceId key : String) :
    (getCredential reg serviceId key = none →
      v.getFor reg env serviceId key =
        Except.error (VaultError.unknownCredential
          ("Unknown credential " ++ key ++ " for service " ++ serviceId))) ∧
    (∀ c, getCredential reg serviceId key = some c →
      v.getFor reg env serviceId key = v.get reg env key) := by
  constructor
  · intro h; simp [Vault.getFor, h]
  · intro c hc; simp [Vault.getFor, hc]

/-- C4, witness: `getFor("twitter", "NOT_A_REAL_KEY")` throws
`UnknownCredential` although the key is bound in the map and in the
environment and `throwOnMissing` is off. -/
theorem getFor_spec_witness :
    vaultNrk.getFor regB envNrk "twitter" "NOT_A_REAL_KEY" =
      Except.error (VaultError.unknownCredential
        "Unknown credential NOT_A_REAL_KEY for service twitter") :=
  (getFor_spec vaultNrk regB envNrk "twitter" "NOT_A_REAL_KEY").1 rfl

/-- C5, counterexample: a raw value that is exactly one double-quote
character is not wrapped in a matching pair of quotes, yet the parser
strips it: the line `K="` binds `K` to the empty string, where the spec's
rule would keep the lone quote. -/
theorem parser_strips_lone_quote :
    loadEnvText fileLoneQuote = [("K", "")] ∧
    wrappedInMatchingPair [dqChar] = false ∧
    specStripQuotes [dqChar] = [dqChar] ∧
    stripQuotes [dqChar] = [] :=
  ⟨rfl, rfl, rfl, rfl⟩

/-- C5, amended: the round-trip file parses to exactly the stated mapping,
and the parser strips the outer quotes exactly when the value is wrapped in
a single matching pair of double or single quotes or is a lone quote
character (which becomes empty); no escape processing happens inside. -/
theorem parser_quote_spec :
    loadEnvText fileRoundTrip = [("K", "v"), ("K2", "v2"), ("K3", "v3")] ∧
    ∀ cs : List Char,
      stripQuotes cs =
        if wrappedInMatchingPair cs = true ∨ cs = [dqChar] ∨ cs = [sqChar] then
          (cs.drop 1).dropLast
        else cs :=
  ⟨rfl, stripQuotes_eq⟩

/-- C6: `get` treats the empty string as missing — an empty map entry falls
back to the environment, and an empty result from both sources throws
`CredentialNotFound` under `throwOnMissing`. -/
theorem get_treats_empty_as_missing (v : Vault) (reg : ServiceRegistry)
    (env : EnvMap) (key : String)
    (hm : credGet v.credentials key = some "") :
    (∀ s, env key = some s → s.isEmpty = false →
      okValue (v.get reg env key) = some s) ∧
    ((env key = some "" ∨ env key = none) → v.options.throwOnMissing = true →
      v.get reg env key =
        Except.error (VaultError.credentialNotFound (notFoundMessage reg key))) := by
  constructor
  · intro s he hs
    simp [Vault.get, okValue, hm, truthy_some_empty, he, truthy_some s hs]
  · intro he ht
    rcases he with he | he <;>
      simp [Vault.get, hm, truthy_some_empty, he, truthy_none, ht]

/-- C6, witness: the map binds `K` to the empty string, the environment
binds `K` to the empty string, and `get` throws `CredentialNotFound`. -/
theorem get_treats_empty_as_missing_witness :
    vaultEmptyK.get regEmpty envKEmpty "K" =
      Except.error (VaultError.credentialNotFound (notFoundMessage regEmpty "K")) :=
  (get_treats_empty_as_missing vaultEmptyK regEmpty envKEmpty "K" rfl).2
    (Or.inl rfl) rfl

/-- C7: whenever `get` resolves a value — from the in-memory map, or from
the process environment because the map value is falsy — that fails format
validation, it does not throw: it returns the value together with a single
non-fatal warning. -/
theorem get_validation_warns (v : Vault) (reg : ServiceRegistry)
    (env : EnvMap) (key s serviceId : String)
    (hres : credGet v.credentials key = some s ∨
      (truthy (credGet v.credentials key) = false ∧ env key = some s))
    (hs : s.isEmpty = false)
    (hv : v.options.validate = true)
    (hf : findServiceByCredential reg key = some serviceId)
    (hr : (validateCredential reg serviceId key s).valid = false) :
    v.get reg env key =
      Except.ok ⟨s, ["Warning: " ++
        (validateCredential reg serviceId key s).error.getD "undefined"]⟩ := by
  rcases hres with hm | ⟨hm, he⟩
  · simp [Vault.get, hm, truthy_some s hs, hf, hv, hr]
  · simp [Vault.get, hm, he, truthy_some s hs, hf, hv, hr]

/-- C7, witness: `K` is resolved from the process environment (the map is
empty) as `zz`, which fails the pattern `b` of credential `K`, and `get`
returns `zz` with the format warning instead of throwing. -/
theorem get_validation_warns_witness :
    vaultDefault.get regB envKzz "K" =
      Except.ok ⟨"zz", ["Warning: " ++
        (validateCredential regB "svc" "K" "zz").error.getD "undefined"]⟩ :=
  get_validation_warns vaultDefault regB envKzz "K" "zz" "svc"
    (Or.inr ⟨rfl, rfl⟩) rfl rfl rfl rfl

/-- C8: after `set(key, val)` with a nonempty `val`, `get(key)` returns
`val`, whatever the map previously bound and whatever the environment
contains — the explicit override has the highest priority. -/
theorem set_then_get (v : Vault) (reg : ServiceRegistry) (env : EnvMap)
    (key val : String) (hval : val.isEmpty = false) :
    okValue ((v.set key val).get reg env key) = some val := by
  simp [Vault.set, Vault.get, okValue,
    credGet_credSet_self v.credentials key val, truthy_some val hval]

/-- C8, witness: the map binds `X` to the file-loaded `filev` and the
environment binds `X` to `envv`; after `set("X", "y")`, `get("X")` returns
`y`. -/
theorem set_then_get_witness :
    okValue ((vaultFileX.set "X" "y").get regEmpty envXenvv "X") = some "y" :=
  set_then_get vaultFileX regEmpty envXenvv "X" "y" rfl

/-- C9: for every filesystem state and starting directory, the locator
(total by construction) returns the `.env` of the nearest ancestor
directory containing one, and `cwd/.env` when no ancestor up to the root
contains one. -/
theorem findEnvFile_spec (fsHas : FsPath → Bool) (cwd : FsPath) :
    findEnvFile fsHas cwd =
      match (ancestors cwd).find? (fun d => fsHas (envPathOf d)) with
      | some d => envPathOf d
      | none => envPathOf cwd :=
  findEnvFrom_eq fsHas cwd cwd

/-- C10: a vault whose map binds `K` to the empty string, with an empty
environment and `throwOnMissing` on: `has("K")` is true, yet `get("K")`
throws `CredentialNotFound`. -/
theorem has_true_get_throws :
    vaultEmptyK.has envNone "K" = true ∧
    vaultEmptyK.get regEmpty envNone "K" =
      Except.error (VaultError.credentialNotFound "Credential not found: K") :=
  ⟨rfl, rfl⟩

end OpenVault
